import Mathlib

/-!
Shallow embedding of the blog-generation workflow of `src/app.py`.

The program builds a LangGraph state machine over a `BlogState` record with
four step nodes (`title_generator`, `content_generator`, `content_reviewer`,
`quality_check`) wired START → title → content → review → quality, and a
conditional edge from `quality_check` routed by `route_based_on_verdict`
("Pass" → END, "Fail" → content_generator).

Python strings are modelled as `List Char`.  The external LLM is modelled as
an oracle stream of `SvcResult`s: each node execution consumes one result,
`SvcResult.ok text` being the text the service returned and `SvcResult.err`
a raised transport error.  A Python `IndexError` from reading `[-1]` of an
empty history list is modelled by the step returning `none`, which the
engine surfaces as `RunOutcome.crash`.
-/

abbrev Str := List Char

/-- Message in a history list: `AIMessage` or `HumanMessage` of langchain. -/
inductive Msg where
  | ai (text : Str)
  | human (text : Str)
deriving DecidableEq, Repr

/-- The `BlogState` TypedDict of `src/app.py`:
`topic`, `title`, `blog_content`, `reviewed_content`, `is_blog_ready`. -/
structure BlogState where
  topic : Str
  title : Str
  blog_content : List Msg
  reviewed_content : List Msg
  is_blog_ready : Str
deriving DecidableEq, Repr

/-- Python `str.strip()`: drop whitespace from both ends. -/
def pyStrip (l : Str) : Str :=
  ((l.dropWhile Char.isWhitespace).reverse.dropWhile Char.isWhitespace).reverse

/-- Python `str.upper()` (ASCII case mapping). -/
def pyUpper (l : Str) : Str := l.map Char.toUpper

/-- Python `s.split("\n")[0]`: the text before the first newline. -/
def firstLine (l : Str) : Str := l.takeWhile (fun c => c != '\n')

/-- Python `s.strip('"')`: drop double-quote characters from both ends. -/
def stripQuoteChars (l : Str) : Str :=
  ((l.dropWhile (fun c => c == '"')).reverse.dropWhile (fun c => c == '"')).reverse

/-- Prompt built by `generate_title` from `state["topic"]`. -/
def title_prompt (topic : Str) : Str :=
  "Generate compelling blog title options about ".toList ++ topic ++
    " that are:\n    - SEO-friendly\n    - Attention-grabbing\n    - Between 6-12 words".toList

/-- Prompt built by `generate_content`; it interpolates only `state["title"]`. -/
def content_prompt (s : BlogState) : Str :=
  "Write a comprehensive blog post titled \"".toList ++ s.title ++
    "\" with:\n    1. Engaging introduction with hook\n    2. 3-5 subheadings with detailed content\n    3. Practical examples/statistics\n    4. Clear transitions between sections\n    5. Actionable conclusion\n    Style: Professional yet conversational (Flesch-Kincaid 60-70). Use markdown formatting".toList

/-- Prompt built by `review_content` from the last draft. -/
def review_prompt (content : Str) : Str :=
  "Critically review this blog content:\n    - Clarity & Structure\n    - Grammar & Style\n    - SEO optimization\n    - Reader engagement\n    Provide specific improvement suggestions. Content:\n".toList ++ content

/-- Prompt built by `evaluate_content` from the last draft and last review. -/
def evaluate_prompt (content feedback : Str) : Str :=
  "Evaluate blog content against editorial feedback (Pass/Fail):\n    Content: ".toList ++ content ++
    "\n    Feedback: ".toList ++ feedback ++ "\n    Answer only Pass or Fail:".toList

/-- `generate_title`: `state["title"] = response.content.split("\n")[0].strip('"')`.
Total: an empty response text just yields an empty title. -/
def generate_title (s : BlogState) (resp : Str) : BlogState :=
  { s with title := stripQuoteChars (firstLine resp) }

/-- `generate_content`: appends `AIMessage(response.content)` to `blog_content`. -/
def generate_content (s : BlogState) (resp : Str) : BlogState :=
  { s with blog_content := s.blog_content ++ [Msg.ai resp] }

/-- `review_content`: reads `state["blog_content"][-1]` (IndexError on empty,
modelled as `none`), then appends `HumanMessage(feedback.content)`. -/
def review_content (s : BlogState) (resp : Str) : Option BlogState :=
  match s.blog_content.getLast? with
  | some _ => some { s with reviewed_content := s.reviewed_content ++ [Msg.human resp] }
  | none => none

/-- `"Pass" if "PASS" in response.content.strip().upper() else "Fail"`. -/
def verdict_of (resp : Str) : Str :=
  if "PASS".toList <:+: pyUpper (pyStrip resp) then "Pass".toList else "Fail".toList

/-- `evaluate_content`: reads the last elements of both histories (IndexError
on empty, modelled as `none`), sets `is_blog_ready` from the response, and
appends `AIMessage("Verdict: " + response.content)` to `reviewed_content`. -/
def evaluate_content (s : BlogState) (resp : Str) : Option BlogState :=
  match s.blog_content.getLast?, s.reviewed_content.getLast? with
  | some _, some _ =>
      some { s with
              is_blog_ready := verdict_of resp,
              reviewed_content := s.reviewed_content ++ [Msg.ai ("Verdict: ".toList ++ resp)] }
  | _, _ => none

/-- `route_based_on_verdict`: `"Pass" if state["is_blog_ready"] == "Pass" else "Fail"`. -/
def route_based_on_verdict (s : BlogState) : Str :=
  if s.is_blog_ready = "Pass".toList then "Pass".toList else "Fail".toList

/-- Graph nodes; `terminal` is langgraph's END. START is a no-op edge into
`title_generator` and needs no node of its own. -/
inductive Node where
  | title_generator
  | content_generator
  | content_reviewer
  | quality_check
  | terminal
deriving DecidableEq, Repr

/-- One result of an `llm.invoke` call: returned text, or a raised error. -/
inductive SvcResult where
  | ok (text : Str)
  | err
deriving DecidableEq, Repr

/-- Outcome of running the graph, always carrying the state accumulated so
far: normal END, a propagated service error, an IndexError from a history
read, or fuel exhaustion (the loop has no iteration bound of its own). -/
inductive RunOutcome where
  | done (s : BlogState)
  | svcFail (s : BlogState)
  | crash (s : BlogState)
  | fuelOut (s : BlogState)
deriving DecidableEq, Repr

/-- The state carried by any outcome. -/
def RunOutcome.state : RunOutcome → BlogState
  | .done s => s
  | .svcFail s => s
  | .crash s => s
  | .fuelOut s => s

/-- Whether the outcome is an IndexError crash. -/
def RunOutcome.isCrash : RunOutcome → Bool
  | .crash _ => true
  | _ => false

/-- The pure part of one node execution, given the service response text. -/
def step : Node → BlogState → Str → Option BlogState
  | .title_generator, s, r => some (generate_title s r)
  | .content_generator, s, r => some (generate_content s r)
  | .content_reviewer, s, r => review_content s r
  | .quality_check, s, r => evaluate_content s r
  | .terminal, s, _ => some s

/-- The edges of `init_graph`: fixed edges plus the conditional edge
`quality_check` → (END on "Pass", `content_generator` on "Fail"). -/
def nextNode : Node → BlogState → Node
  | .title_generator, _ => .content_generator
  | .content_generator, _ => .content_reviewer
  | .content_reviewer, _ => .quality_check
  | .quality_check, s =>
      if route_based_on_verdict s = "Pass".toList then .terminal else .content_generator
  | .terminal, _ => .terminal

/-- Fuel-indexed graph execution.  Each non-terminal node consumes one
service result; an exhausted oracle stream also counts as a service
failure.  `terminal` returns the final state. -/
def exec : Nat → Node → BlogState → List SvcResult → RunOutcome
  | 0, _, s, _ => .fuelOut s
  | fuel + 1, nd, s, resps =>
      if nd = Node.terminal then .done s
      else
        match resps with
        | [] => .svcFail s
        | .err :: _ => .svcFail s
        | .ok r :: rest =>
            match step nd s r with
            | none => .crash s
            | some t => exec fuel (nextNode nd t) t rest

/-- The fresh state built by the caller: topic set, everything else empty. -/
def initState (topic : Str) : BlogState :=
  { topic := topic, title := [], blog_content := [], reviewed_content := [],
    is_blog_ready := [] }

/-- `graph.invoke` on a fresh state: enter at `title_generator` (START is a
no-op) and run to END, a fault, or fuel exhaustion. -/
def run (fuel : Nat) (topic : Str) (resps : List SvcResult) : RunOutcome :=
  exec fuel Node.title_generator (initState topic) resps

/-- One full cycle of the retry loop body:
`content_generator`, `content_reviewer`, `quality_check`. -/
def runCycle (s : BlogState) (r1 r2 r3 : Str) : Option BlogState :=
  match review_content (generate_content s r1) r2 with
  | none => none
  | some t => evaluate_content t r3

/-- N full cycles of the loop body, one response triple per cycle. -/
def runCycles : BlogState → List (Str × Str × Str) → Option BlogState
  | s, [] => some s
  | s, r :: rest =>
      match runCycle s r.1 r.2.1 r.2.2 with
      | none => none
      | some t => runCycles t rest

/-- The response text contains the token "pass" in some letter case,
somewhere: a four-character segment whose ASCII uppercasing is "PASS". -/
def containsPassToken (l : Str) : Prop :=
  ∃ t : Str, t <:+: l ∧ pyUpper t = "PASS".toList

/-- The last review-history entry is a synthetic verdict summary. -/
def verdictTagged (s : BlogState) : Prop :=
  ∃ r : Str, s.reviewed_content.getLast? = some (Msg.ai ("Verdict: ".toList ++ r))

/-- What must hold of the state for a node's history reads to succeed:
the reviewer needs a draft, the quality check needs a draft and a review. -/
def nodeOK : Node → BlogState → Prop
  | .content_reviewer, s => s.blog_content ≠ []
  | .quality_check, s => s.blog_content ≠ [] ∧ s.reviewed_content ≠ []
  | _, _ => True

example : verdict_of "  It is a PaSs!  ".toList = "Pass".toList := by decide
example : verdict_of "FAIL".toList = "Fail".toList := by decide
example : verdict_of [] = "Fail".toList := by decide
example : generate_title (initState "T".toList) "\"My Title\"\nmore".toList =
    { initState "T".toList with title := "My Title".toList } := by decide
example :
    run 6 "T".toList [SvcResult.ok "t".toList, SvcResult.ok "c".toList,
      SvcResult.ok "r".toList, SvcResult.ok "pass".toList] =
    RunOutcome.done
      { topic := "T".toList, title := "t".toList, blog_content := [Msg.ai "c".toList],
        reviewed_content := [Msg.human "r".toList, Msg.ai "Verdict: pass".toList],
        is_blog_ready := "Pass".toList } := by decide

lemma review_content_eq (s : BlogState) (resp : Str) (hb : s.blog_content ≠ []) :
    review_content s resp =
      some { s with reviewed_content := s.reviewed_content ++ [Msg.human resp] } := by
  unfold review_content
  cases h : s.blog_content.getLast? with
  | none => exact absurd (List.getLast?_eq_none_iff.mp h) hb
  | some a => rfl

lemma evaluate_content_eq (s : BlogState) (resp : Str) (hb : s.blog_content ≠ [])
    (hr : s.reviewed_content ≠ []) :
    evaluate_content s resp =
      some { s with
              is_blog_ready := verdict_of resp,
              reviewed_content :=
                s.reviewed_content ++ [Msg.ai ("Verdict: ".toList ++ resp)] } := by
  unfold evaluate_content
  cases h1 : s.blog_content.getLast? with
  | none => exact absurd (List.getLast?_eq_none_iff.mp h1) hb
  | some a =>
    cases h2 : s.reviewed_content.getLast? with
    | none => exact absurd (List.getLast?_eq_none_iff.mp h2) hr
    | some b => rfl

lemma review_content_some {s t : BlogState} {resp : Str}
    (h : review_content s resp = some t) :
    s.blog_content ≠ [] ∧
      t = { s with reviewed_content := s.reviewed_content ++ [Msg.human resp] } := by
  unfold review_content at h
  split at h
  · rename_i a ha
    refine ⟨fun hnil => by rw [hnil] at ha; simp at ha, (Option.some.inj h).symm⟩
  · exact absurd h (by simp)

lemma evaluate_content_some {s t : BlogState} {resp : Str}
    (h : evaluate_content s resp = some t) :
    s.blog_content ≠ [] ∧ s.reviewed_content ≠ [] ∧
      t = { s with
              is_blog_ready := verdict_of resp,
              reviewed_content :=
                s.reviewed_content ++ [Msg.ai ("Verdict: ".toList ++ resp)] } := by
  unfold evaluate_content at h
  split at h
  · rename_i a b ha hb
    refine ⟨fun hnil => by rw [hnil] at ha; simp at ha,
      fun hnil => by rw [hnil] at hb; simp at hb, (Option.some.inj h).symm⟩
  · exact absurd h (by simp)

lemma step_effects {nd : Node} {s t : BlogState} {r : Str}
    (h : step nd s r = some t) :
    s.blog_content <+: t.blog_content ∧ s.reviewed_content <+: t.reviewed_content ∧
      t.topic = s.topic ∧ (nd ≠ Node.title_generator → t.title = s.title) := by
  cases nd with
  | title_generator =>
    have ht : t = generate_title s r := (Option.some.inj h).symm
    subst ht
    exact ⟨List.prefix_refl _, List.prefix_refl _, rfl, fun hne => absurd rfl hne⟩
  | content_generator =>
    have ht : t = generate_content s r := (Option.some.inj h).symm
    subst ht
    exact ⟨ List.prefix_append _ _, List.prefix_refl _, rfl, fun _ => rfl⟩
  | content_reviewer =>
    obtain ⟨hb, ht⟩ := review_content_some h
    subst ht
    exact ⟨List.prefix_refl _, List.prefix_append _ _, rfl, fun _ => rfl⟩
  | quality_check =>
    obtain ⟨hb, hr, ht⟩ := evaluate_content_some h
    subst ht
    exact ⟨List.prefix_refl _, List.prefix_append _ _, rfl, fun _ => rfl⟩
  | terminal =>
    have ht : t = s := (Option.some.inj h).symm
    subst ht
    exact ⟨List.prefix_refl _, List.prefix_refl _, rfl, fun _ => rfl⟩

lemma step_some_of_nodeOK {nd : Node} {s : BlogState} (r : Str) (h : nodeOK nd s) :
    ∃ t, step nd s r = some t := by
  cases nd with
  | title_generator => exact ⟨generate_title s r, rfl⟩
  | content_generator => exact ⟨generate_content s r, rfl⟩
  | content_reviewer => exact ⟨_, review_content_eq s r h⟩
  | quality_check => exact ⟨_, evaluate_content_eq s r h.1 h.2⟩
  | terminal => exact ⟨s, rfl⟩

lemma nodeOK_next {nd : Node} {s t : BlogState} {r : Str}
    (hstep : step nd s r = some t) (h : nodeOK nd s) : nodeOK (nextNode nd t) t := by
  cases nd with
  | title_generator => trivial
  | content_generator =>
    have ht : t = generate_content s r := (Option.some.inj hstep).symm
    subst ht
    simp [nextNode, nodeOK, generate_content]
  | content_reviewer =>
    obtain ⟨hb, ht⟩ := review_content_some hstep
    subst ht
    exact ⟨hb, by simp⟩
  | quality_check =>
    simp only [nextNode]
    split
    · trivial
    · trivial
  | terminal => trivial

lemma route_pass_iff {s : BlogState} :
    route_based_on_verdict s = "Pass".toList ↔ s.is_blog_ready = "Pass".toList := by
  unfold route_based_on_verdict
  by_cases h : s.is_blog_ready = "Pass".toList
  · simp [h]
  · rw [if_neg h]
    exact iff_of_false (by decide) h

lemma exec_succ (n : Nat) (nd : Node) (s : BlogState) (resps : List SvcResult) :
    exec (n + 1) nd s resps =
      if nd = Node.terminal then .done s
      else
        match resps with
        | [] => .svcFail s
        | .err :: _ => .svcFail s
        | .ok r :: rest =>
            match step nd s r with
            | none => .crash s
            | some t => exec n (nextNode nd t) t rest := rfl

lemma exec_succ_term (n : Nat) (s : BlogState) (resps : List SvcResult) :
    exec (n + 1) Node.terminal s resps = RunOutcome.done s := rfl

lemma exec_succ_nil {nd : Node} (hnd : nd ≠ Node.terminal) (n : Nat) (s : BlogState) :
    exec (n + 1) nd s [] = RunOutcome.svcFail s := by
  rw [exec_succ, if_neg hnd]

lemma exec_succ_err {nd : Node} (hnd : nd ≠ Node.terminal) (n : Nat) (s : BlogState)
    (rest : List SvcResult) :
    exec (n + 1) nd s (SvcResult.err :: rest) = RunOutcome.svcFail s := by
  rw [exec_succ, if_neg hnd]

lemma exec_succ_ok {nd : Node} (hnd : nd ≠ Node.terminal) (n : Nat) (s : BlogState)
    (r : Str) (rest : List SvcResult) :
    exec (n + 1) nd s (SvcResult.ok r :: rest) =
      match step nd s r with
      | none => RunOutcome.crash s
      | some t => exec n (nextNode nd t) t rest := by
  rw [exec_succ, if_neg hnd]

lemma exec_no_crash :
    ∀ (fuel : Nat) (nd : Node) (s : BlogState) (resps : List SvcResult),
      nodeOK nd s → (exec fuel nd s resps).isCrash = false := by
  intro fuel
  induction fuel with
  | zero => intro nd s resps _; rfl
  | succ n ih =>
    intro nd s resps h
    by_cases hnd : nd = Node.terminal
    · subst hnd; rw [exec_succ_term]; rfl
    · cases resps with
      | nil => rw [exec_succ_nil hnd]; rfl
      | cons hd rest =>
        cases hd with
        | err => rw [exec_succ_err hnd]; rfl
        | ok r =>
          obtain ⟨t, ht⟩ := step_some_of_nodeOK r h
          rw [exec_succ_ok hnd, ht]
          exact ih (nextNode nd t) t rest (nodeOK_next ht h)

lemma exec_done_inv :
    ∀ (fuel : Nat) (nd : Node) (s : BlogState) (resps : List SvcResult) (t : BlogState),
      (nd = Node.terminal → s.is_blog_ready = "Pass".toList ∧ verdictTagged s) →
      exec fuel nd s resps = RunOutcome.done t →
      t.is_blog_ready = "Pass".toList ∧ verdictTagged t := by
  intro fuel
  induction fuel with
  | zero => intro nd s resps t _ hexec; simp [exec] at hexec
  | succ n ih =>
    intro nd s resps t h hexec
    by_cases hnd : nd = Node.terminal
    · subst hnd
      rw [exec_succ_term] at hexec
      have hst : s = t := RunOutcome.done.inj hexec
      exact hst ▸ h rfl
    · cases resps with
      | nil => rw [exec_succ_nil hnd] at hexec; simp at hexec
      | cons hd rest =>
        cases hd with
        | err => rw [exec_succ_err hnd] at hexec; simp at hexec
        | ok r =>
          rw [exec_succ_ok hnd] at hexec
          cases hstep : step nd s r with
          | none => rw [hstep] at hexec; simp at hexec
          | some u =>
            rw [hstep] at hexec
            refine ih (nextNode nd u) u rest t ?_ hexec
            intro hterm
            cases nd with
            | title_generator => simp [nextNode] at hterm
            | content_generator => simp [nextNode] at hterm
            | content_reviewer => simp [nextNode] at hterm
            | terminal => exact absurd rfl hnd
            | quality_check =>
              obtain ⟨hb, hr, hu⟩ := evaluate_content_some hstep
              simp only [nextNode] at hterm
              split at hterm
              · rename_i hroute
                refine ⟨route_pass_iff.mp hroute, r, ?_⟩
                rw [hu]
                exact List.getLast?_concat _
              · simp at hterm

lemma exec_mono :
    ∀ (fuel : Nat) (nd : Node) (s : BlogState) (resps : List SvcResult),
      s.blog_content <+: ((exec fuel nd s resps).state).blog_content ∧
        s.reviewed_content <+: ((exec fuel nd s resps).state).reviewed_content := by
  intro fuel
  induction fuel with
  | zero => intro nd s resps; exact ⟨List.prefix_refl _, List.prefix_refl _⟩
  | succ n ih =>
    intro nd s resps
    by_cases hnd : nd = Node.terminal
    · subst hnd; rw [exec_succ_term]; exact ⟨List.prefix_refl _, List.prefix_refl _⟩
    · cases resps with
      | nil => rw [exec_succ_nil hnd]; exact ⟨List.prefix_refl _, List.prefix_refl _⟩
      | cons hd rest =>
        cases hd with
        | err => rw [exec_succ_err hnd]; exact ⟨List.prefix_refl _, List.prefix_refl _⟩
        | ok r =>
          rw [exec_succ_ok hnd]
          cases hstep : step nd s r with
          | none => exact ⟨List.prefix_refl _, List.prefix_refl _⟩
          | some u =>
            obtain ⟨h1, h2, _, _⟩ := step_effects hstep
            obtain ⟨h3, h4⟩ := ih (nextNode nd u) u rest
            exact ⟨h1.trans h3, h2.trans h4⟩

lemma dropWhile_keeps_clean_seg {p : Char → Bool} :
    ∀ (l t : Str), t ≠ [] → (∀ c ∈ t, p c = false) → t <:+: l → t <:+: l.dropWhile p := by
  intro l
  induction l with
  | nil =>
    intro t ht _ h
    exact absurd ( List.infix_nil.mp h) ht
  | cons x xs ih =>
    intro t ht hp h
    by_cases hx : p x = true
    · rw [ List.dropWhile_cons, if_pos hx]
      refine ih t ht hp ?_
      obtain ⟨pre, suf, hps⟩ := h
      cases pre with
      | nil =>
        cases t with
        | nil => exact absurd rfl ht
        | cons c cs =>
          simp only [List.nil_append, List.cons_append, List.cons.injEq] at hps
          have hc : p c = false := hp c (by simp)
          rw [hps.1, hx] at hc
          exact absurd hc (by simp)
      | cons a pre2 =>
        simp only [List.cons_append, List.cons.injEq] at hps
        exact ⟨pre2, suf, hps.2⟩
    · rw [ List.dropWhile_cons, if_neg hx]
      exact h

lemma passToken_chars {t : Str} (h : pyUpper t = "PASS".toList) :
    t ≠ [] ∧ ∀ c ∈ t, Char.isWhitespace c = false := by
  constructor
  · intro hnil
    rw [hnil] at h
    simp [pyUpper] at h
  · intro c hc
    have hmem : Char.toUpper c ∈ "PASS".toList := by
      rw [← h]
      exact List.mem_map_of_mem _ hc
    by_contra hws
    simp only [Bool.not_eq_false] at hws
    simp only [Char.isWhitespace, decide_eq_true_eq, Bool.or_eq_true] at hws
    rcases hws with ((h1 | h2) | h3) | h4
    · subst h1; exact absurd hmem (by decide)
    · subst h2; exact absurd hmem (by decide)
    · subst h3; exact absurd hmem (by decide)
    · subst h4; exact absurd hmem (by decide)

lemma clean_seg_pyStrip {t l : Str} (ht : t ≠ [])
    (hp : ∀ c ∈ t, Char.isWhitespace c = false) (h : t <:+: l) :
    t <:+: pyStrip l := by
  have h1 : t <:+: l.dropWhile Char.isWhitespace :=
    dropWhile_keeps_clean_seg l t ht hp h
  have h2 : t.reverse <:+: (l.dropWhile Char.isWhitespace).reverse :=
    List.reverse_infix.mpr h1
  have h3 : t.reverse <:+:
      ((l.dropWhile Char.isWhitespace).reverse).dropWhile Char.isWhitespace :=
    dropWhile_keeps_clean_seg _ _ (by simpa using ht)
      (fun c hc => hp c ( List.mem_reverse.mp hc)) h2
  have h4 := List.reverse_infix.mpr h3
  simpa [pyStrip] using h4

lemma pyStrip_isSeg (l : Str) : pyStrip l <:+: l := by
  have h1 : l.dropWhile Char.isWhitespace <:+ l := List.dropWhile_suffix _
  have h2 : (l.dropWhile Char.isWhitespace).reverse.dropWhile Char.isWhitespace <:+
      (l.dropWhile Char.isWhitespace).reverse := List.dropWhile_suffix _
  have h3 : pyStrip l <:+: l.dropWhile Char.isWhitespace :=
    List.reverse_infix.mp (by simpa [pyStrip] using h2.isInfix)
  exact h3.trans h1.isInfix

lemma seg_of_map_decomp {f : Char → Char} {y l : Str} (h : y <:+: l.map f) :
    ∃ t : Str, t <:+: l ∧ t.map f = y := by
  obtain ⟨pre, suf, hps⟩ := h
  have h1 : List.map f l = pre ++ (y ++ suf) := by
    rw [← hps]
    simp [List.append_assoc]
  rw [ List.map_eq_append_iff] at h1
  obtain ⟨l1, l2, hl, _, hm2⟩ := h1
  obtain ⟨l3, l4, hl2, hm3, _⟩ := List.map_eq_append_iff.mp hm2
  refine ⟨l3, ⟨l1, l4, ?_⟩, hm3⟩
  rw [hl, hl2]
  simp [List.append_assoc]

lemma verdict_of_pass_iff (resp : Str) :
    verdict_of resp = "Pass".toList ↔ containsPassToken resp := by
  unfold verdict_of
  by_cases h : "PASS".toList <:+: pyUpper (pyStrip resp)
  · rw [if_pos h]
    simp only [pyUpper] at h
    obtain ⟨t, hts, hmap⟩ := seg_of_map_decomp h
    exact iff_of_true rfl ⟨t, hts.trans (pyStrip_isSeg resp), hmap⟩
  · rw [if_neg h]
    refine iff_of_false (by decide) ?_
    rintro ⟨t, hti, hmap⟩
    obtain ⟨ht, hclean⟩ := passToken_chars hmap
    refine h ?_
    rw [← hmap]
    exact List.IsInfix.map _ (clean_seg_pyStrip ht hclean hti)

lemma verdict_of_fail_iff (resp : Str) :
    verdict_of resp = "Fail".toList ↔ ¬ containsPassToken resp := by
  constructor
  · intro hf hc
    have hpp := (verdict_of_pass_iff resp).mpr hc
    rw [hpp] at hf
    exact absurd hf (by decide)
  · intro hnc
    unfold verdict_of
    by_cases hin : "PASS".toList <:+: pyUpper (pyStrip resp)
    · exact absurd ((verdict_of_pass_iff resp).mp (by unfold verdict_of; rw [if_pos hin])) hnc
    · rw [if_neg hin]

lemma runCycle_eq (s : BlogState) (r1 r2 r3 : Str) :
    runCycle s r1 r2 r3 =
      some { s with
              blog_content := s.blog_content ++ [Msg.ai r1],
              reviewed_content :=
                (s.reviewed_content ++ [Msg.human r2]) ++
                  [Msg.ai ("Verdict: ".toList ++ r3)],
              is_blog_ready := verdict_of r3 } := by
  have h1 : review_content (generate_content s r1) r2 =
      some { s with
              blog_content := s.blog_content ++ [Msg.ai r1],
              reviewed_content := s.reviewed_content ++ [Msg.human r2] } := by
    rw [review_content_eq _ _ (by simp [generate_content])]
    rfl
  unfold runCycle
  rw [h1]
  show evaluate_content _ r3 = _
  rw [evaluate_content_eq _ _ (by simp) (by simp)]

lemma runCycles_lengths :
    ∀ (rs : List (Str × Str × Str)) (s : BlogState),
      ∃ t, runCycles s rs = some t ∧
        t.blog_content.length = s.blog_content.length + rs.length ∧
        t.reviewed_content.length = s.reviewed_content.length + 2 * rs.length := by
  intro rs
  induction rs with
  | nil => intro s; exact ⟨s, rfl, by simp, by simp⟩
  | cons hd rest ih =>
    intro s
    obtain ⟨t, ht, h1, h2⟩ := ih { s with
      blog_content := s.blog_content ++ [Msg.ai hd.1],
      reviewed_content :=
        (s.reviewed_content ++ [Msg.human hd.2.1]) ++
          [Msg.ai ("Verdict: ".toList ++ hd.2.2)],
      is_blog_ready := verdict_of hd.2.2 }
    refine ⟨t, ?_, ?_, ?_⟩
    · show (match runCycle s hd.1 hd.2.1 hd.2.2 with
            | none => none
            | some t => runCycles t rest) = some t
      rw [runCycle_eq]
      exact ht
    · simp only [List.length_append, List.length_cons, List.length_nil] at h1 ⊢
      omega
    · simp only [List.length_append, List.length_cons, List.length_nil] at h2 ⊢
      omega

/-- Claim C1: for every topic, a run that terminates normally does so only
by reaching END via the router returning "Pass"; the final state of every
normally completed run has `is_blog_ready = "Pass"`, and no other path
leads to END. -/
theorem C1_run_terminates_normally_only_with_pass :
    ∀ (fuel : Nat) (topic : Str) (resps : List SvcResult) (s : BlogState),
      run fuel topic resps = RunOutcome.done s → s.is_blog_ready = "Pass".toList := by
  intro fuel topic resps s h
  exact (exec_done_inv fuel Node.title_generator (initState topic) resps s
    (fun hh => absurd hh (by decide)) h).1

theorem C1_witness :
    ((run 6 "T".toList [SvcResult.ok "t".toList, SvcResult.ok "c".toList,
        SvcResult.ok "r".toList, SvcResult.ok "pass".toList]).state).is_blog_ready =
      "Pass".toList :=
  C1_run_terminates_normally_only_with_pass 6 "T".toList
    [SvcResult.ok "t".toList, SvcResult.ok "c".toList,
      SvcResult.ok "r".toList, SvcResult.ok "pass".toList] _ (by decide)

/-- Claim C2: `evaluate_content` sets the verdict to "Pass" exactly when the
service response contains the token "pass" in any letter case anywhere in
the text, and to "Fail" for every other response (empty string and texts
like "Fail"/"FAIL" without a pass token included). -/
theorem C2_evaluate_sets_pass_iff_token :
    ∀ (s : BlogState) (resp : Str) (t : BlogState),
      evaluate_content s resp = some t →
        (t.is_blog_ready = "Pass".toList ↔ containsPassToken resp) ∧
        (t.is_blog_ready = "Fail".toList ↔ ¬ containsPassToken resp) := by
  intro s resp t h
  obtain ⟨_, _, ht⟩ := evaluate_content_some h
  subst ht
  exact ⟨verdict_of_pass_iff resp, verdict_of_fail_iff resp⟩

theorem C2_witness :
    (((evaluate_content ⟨"Top".toList, [], [Msg.ai "draft".toList],
          [Msg.human "rev".toList], []⟩ " We say: PaSs ok".toList).getD
        (initState [])).is_blog_ready = "Pass".toList ↔
      containsPassToken " We say: PaSs ok".toList) ∧
    (((evaluate_content ⟨"Top".toList, [], [Msg.ai "draft".toList],
          [Msg.human "rev".toList], []⟩ " We say: PaSs ok".toList).getD
        (initState [])).is_blog_ready = "Fail".toList ↔
      ¬ containsPassToken " We say: PaSs ok".toList) :=
  C2_evaluate_sets_pass_iff_token
    ⟨"Top".toList, [], [Msg.ai "draft".toList], [Msg.human "rev".toList], []⟩
    " We say: PaSs ok".toList _ (by decide)

/-- Claim C3: starting from the initial state (empty histories), after N
full cycles of the loop body (generate, review, evaluate) the draft history
has length exactly N and the review history length exactly 2N (one critique
plus one verdict summary appended per cycle). -/
theorem C3_history_lengths_after_cycles :
    ∀ (topic : Str) (rs : List (Str × Str × Str)),
      ∃ t, runCycles (initState topic) rs = some t ∧
        t.blog_content.length = rs.length ∧
        t.reviewed_content.length = 2 * rs.length := by
  intro topic rs
  obtain ⟨t, ht, h1, h2⟩ := runCycles_lengths rs (initState topic)
  refine ⟨t, ht, ?_, ?_⟩
  · simpa [initState] using h1
  · simpa [initState] using h2

/-- Claim C4 counterexample: on an empty response text the title step does
NOT fail — it succeeds, storing the empty string as the title, so the claim
"GenerateTitle fails whenever the content service returns empty text" is
false on the code. -/
theorem C4_counterexample :
    step Node.title_generator (initState "Testing".toList) [] =
      some { initState "Testing".toList with title := [] } := by decide

/-- Claim C4 (amended): the title step never fails on any returned text —
an empty response merely yields an empty title and the run continues; the
step fails only when the service call itself raises, in which case the
failure propagates immediately with no retry and no fallback title. -/
theorem C4_title_step_fails_only_on_service_error :
    (∀ (s : BlogState) (resp : Str),
        step Node.title_generator s resp = some (generate_title s resp)) ∧
    (∀ s : BlogState, generate_title s [] = { s with title := [] }) ∧
    (∀ (n : Nat) (s : BlogState) (rest : List SvcResult),
        exec (n + 1) Node.title_generator s (SvcResult.err :: rest) =
          RunOutcome.svcFail s) ∧
    (∀ (n : Nat) (s : BlogState) (rest : List SvcResult),
        exec (n + 1) Node.title_generator s (SvcResult.ok [] :: rest) =
          exec n Node.content_generator (generate_title s []) rest) := by
  exact ⟨fun s resp => rfl, fun s => rfl, fun n s rest => rfl, fun n s rest => rfl⟩

/-- Claim C5: a failing service call at ANY step node aborts the run
immediately, surfacing the failure to the caller with the state accumulated
so far; every append made by earlier successful steps remains (history
sequences of the start state are prefixes of those of any outcome's state);
concretely, a failure on the second call — the content step — leaves the
title set and the draft history empty. -/
theorem C5_failure_aborts_no_rollback :
    (∀ (fuel : Nat) (nd : Node) (s : BlogState) (rest : List SvcResult),
        nd ≠ Node.terminal →
          exec (fuel + 1) nd s (SvcResult.err :: rest) = RunOutcome.svcFail s) ∧
    (∀ (fuel : Nat) (nd : Node) (s : BlogState) (resps : List SvcResult),
        s.blog_content <+: ((exec fuel nd s resps).state).blog_content ∧
          s.reviewed_content <+: ((exec fuel nd s resps).state).reviewed_content) ∧
    (∀ (topic r : Str) (n : Nat),
        run (n + 2) topic [SvcResult.ok r, SvcResult.err] =
          RunOutcome.svcFail
            { topic := topic, title := stripQuoteChars (firstLine r),
              blog_content := [], reviewed_content := [], is_blog_ready := [] }) :=
  ⟨fun fuel nd s rest hnd => exec_succ_err hnd fuel s rest, exec_mono, fun _ _ _ => rfl⟩

theorem C5_witness :
    exec (3 + 1) Node.content_reviewer
        ⟨"W5".toList, "t5".toList, [Msg.ai "d5".toList], [], []⟩ [SvcResult.err] =
      RunOutcome.svcFail
        ⟨"W5".toList, "t5".toList, [Msg.ai "d5".toList], [], []⟩ :=
  C5_failure_aborts_no_rollback.1 3 Node.content_reviewer
    ⟨"W5".toList, "t5".toList, [Msg.ai "d5".toList], [], []⟩ [] (by decide)

/-- Claim C6: in every reachable configuration of the graph the last-element
history reads of the reviewer and of the quality check never hit an empty
sequence: no run from a fresh state ever produces an IndexError crash. -/
theorem C6_last_element_reads_safe :
    ∀ (fuel : Nat) (topic : Str) (resps : List SvcResult),
      (run fuel topic resps).isCrash = false := by
  intro fuel topic resps
  exact exec_no_crash fuel Node.title_generator (initState topic) resps trivial

/-- Claim C7: every step function only appends to the two history lists:
for every step and every input state on which it succeeds, the input
histories are prefixes of the output histories (nothing deleted, modified
or reordered). -/
theorem C7_histories_append_only :
    ∀ (nd : Node) (s : BlogState) (r : Str) (t : BlogState),
      step nd s r = some t →
        s.blog_content <+: t.blog_content ∧
          s.reviewed_content <+: t.reviewed_content := by
  intro nd s r t h
  exact ⟨(step_effects h).1, (step_effects h).2.1⟩

theorem C7_witness :
    (⟨"Tp".toList, [], [Msg.ai "dd".toList], [], []⟩ : BlogState).blog_content <+:
        ((step Node.content_reviewer
            ⟨"Tp".toList, [], [Msg.ai "dd".toList], [], []⟩ "fb".toList).getD
          (initState [])).blog_content ∧
      (⟨"Tp".toList, [], [Msg.ai "dd".toList], [], []⟩ : BlogState).reviewed_content <+:
        ((step Node.content_reviewer
            ⟨"Tp".toList, [], [Msg.ai "dd".toList], [], []⟩ "fb".toList).getD
          (initState [])).reviewed_content :=
  C7_histories_append_only Node.content_reviewer
    ⟨"Tp".toList, [], [Msg.ai "dd".toList], [], []⟩ "fb".toList _ (by decide)

/-- Claim C8: the prompt `generate_content` sends depends only on the title,
not on the review history, and for a fixed service response the appended
draft is likewise independent of the review history: two states with equal
titles produce the identical prompt and identical last draft. -/
theorem C8_regeneration_prompt_title_only :
    ∀ (s1 s2 : BlogState) (r : Str), s1.title = s2.title →
      content_prompt s1 = content_prompt s2 ∧
      (generate_content s1 r).blog_content.getLast? =
        (generate_content s2 r).blog_content.getLast? := by
  intro s1 s2 r h
  constructor
  · unfold content_prompt
    rw [h]
  · show (s1.blog_content ++ [Msg.ai r]).getLast? = (s2.blog_content ++ [Msg.ai r]).getLast?
    rw [ List.getLast?_concat, List.getLast?_concat]

theorem C8_witness :
    content_prompt ⟨"T8".toList, "Same Title".toList, [], [], []⟩ =
        content_prompt ⟨"T8".toList, "Same Title".toList, [],
          [Msg.human "needs work".toList, Msg.ai "Verdict: Fail".toList], "Fail".toList⟩ ∧
      (generate_content ⟨"T8".toList, "Same Title".toList, [], [], []⟩
          "second draft".toList).blog_content.getLast? =
        (generate_content ⟨"T8".toList, "Same Title".toList, [],
            [Msg.human "needs work".toList, Msg.ai "Verdict: Fail".toList], "Fail".toList⟩
          "second draft".toList).blog_content.getLast? :=
  C8_regeneration_prompt_title_only
    ⟨"T8".toList, "Same Title".toList, [], [], []⟩
    ⟨"T8".toList, "Same Title".toList, [],
      [Msg.human "needs work".toList, Msg.ai "Verdict: Fail".toList], "Fail".toList⟩
    "second draft".toList (by decide)

/-- Claim C9: every step preserves the topic; every step other than the
title step leaves the title unchanged; and the fresh state built at run
start has an empty title (so the title is written exactly once, by the
title step). -/
theorem C9_topic_immutable_title_once :
    (∀ (nd : Node) (s : BlogState) (r : Str) (t : BlogState),
        step nd s r = some t → t.topic = s.topic) ∧
    (∀ (nd : Node) (s : BlogState) (r : Str) (t : BlogState),
        nd ≠ Node.title_generator → step nd s r = some t → t.title = s.title) ∧
    (∀ topic : Str, (initState topic).title = []) := by
  refine ⟨fun nd s r t h => (step_effects h).2.2.1,
    fun nd s r t hne h => (step_effects h).2.2.2 hne, fun _ => rfl⟩

theorem C9_witness :
    ((step Node.content_generator
        ⟨"T9".toList, "ti".toList, [], [], []⟩ "c9".toList).getD (initState [])).topic =
      (⟨"T9".toList, "ti".toList, [], [], []⟩ : BlogState).topic ∧
    ((step Node.content_generator
        ⟨"T9".toList, "ti".toList, [], [], []⟩ "c9".toList).getD (initState [])).title =
      (⟨"T9".toList, "ti".toList, [], [], []⟩ : BlogState).title ∧
    (initState "T9".toList).title = [] :=
  ⟨C9_topic_immutable_title_once.1 Node.content_generator
      ⟨"T9".toList, "ti".toList, [], [], []⟩ "c9".toList _ (by decide),
    C9_topic_immutable_title_once.2.1 Node.content_generator
      ⟨"T9".toList, "ti".toList, [], [], []⟩ "c9".toList _ (by decide) (by decide),
    C9_topic_immutable_title_once.2.2 "T9".toList⟩

/-- Claim C10: after every successful `evaluate_content` the last review
history entry is the synthetic AI entry "Verdict: " followed by the raw
evaluation response, with the previous last entry (the critique) at the
second-to-last position; and the last review entry of every normally
completed run is such a verdict summary. -/
theorem C10_verdict_summary_is_last :
    (∀ (s : BlogState) (resp : Str) (t : BlogState),
        evaluate_content s resp = some t →
          t.reviewed_content.getLast? = some (Msg.ai ("Verdict: ".toList ++ resp)) ∧
          t.reviewed_content.dropLast.getLast? = s.reviewed_content.getLast?) ∧
    (∀ (fuel : Nat) (topic : Str) (resps : List SvcResult) (u : BlogState),
        run fuel topic resps = RunOutcome.done u → verdictTagged u) := by
  constructor
  · intro s resp t h
    obtain ⟨_, _, ht⟩ := evaluate_content_some h
    subst ht
    constructor
    · exact List.getLast?_concat _
    · show (s.reviewed_content ++ [Msg.ai ("Verdict: ".toList ++ resp)]).dropLast.getLast? =
        s.reviewed_content.getLast?
      rw [ List.dropLast_concat]
  · intro fuel topic resps u h
    exact (exec_done_inv fuel Node.title_generator (initState topic) resps u
      (fun hh => absurd hh (by decide)) h).2

theorem C10_witness :
    (((evaluate_content ⟨"TX".toList, [], [Msg.ai "dx".toList],
          [Msg.human "rx".toList], []⟩ "ok".toList).getD
        (initState [])).reviewed_content.getLast? =
        some (Msg.ai ("Verdict: ".toList ++ "ok".toList)) ∧
      ((evaluate_content ⟨"TX".toList, [], [Msg.ai "dx".toList],
          [Msg.human "rx".toList], []⟩ "ok".toList).getD
        (initState [])).reviewed_content.dropLast.getLast? =
        (⟨"TX".toList, [], [Msg.ai "dx".toList],
          [Msg.human "rx".toList], []⟩ : BlogState).reviewed_content.getLast?) ∧
    verdictTagged ((run 7 "U".toList [SvcResult.ok "t2".toList, SvcResult.ok "c2".toList,
        SvcResult.ok "r2".toList, SvcResult.ok "PASS".toList]).state) :=
  ⟨C10_verdict_summary_is_last.1
      ⟨"TX".toList, [], [Msg.ai "dx".toList], [Msg.human "rx".toList], []⟩
      "ok".toList _ (by decide),
    C10_verdict_summary_is_last.2 7 "U".toList
      [SvcResult.ok "t2".toList, SvcResult.ok "c2".toList,
        SvcResult.ok "r2".toList, SvcResult.ok "PASS".toList] _ (by decide)⟩
